import Mathlib

/-!
Verification development for the GREE infrared remote decoder
(`decode.py`).  The pipeline under study is
pulse classification -> stateful frame assembly -> symbolic code
construction -> LSB-first byte extraction -> checksum validation ->
semantic field decoding.  Every definition below is a shallow embedding
of the corresponding Python function, keeping its name.
-/

-- ------------------------------------------------------------------
-- Pulse classifier (decode.py is_long_start / is_short_start / is_bit /
-- is_zero / is_one / is_space).  Durations are signed microseconds.
-- ------------------------------------------------------------------

-- Check for start pulse of a standard 8-byte NEC-like data frame
def is_long_start (hi lo : Int) : Bool :=
  decide (8000 < hi ∧ lo < -4000)

-- Check for start pulse of a short, 2-byte data frame
def is_short_start (hi lo : Int) : Bool :=
  decide (5000 < hi ∧ hi < 7000 ∧ -3500 < lo ∧ lo < -2500)

-- Check for bit lead burst
def is_bit (hi : Int) : Bool :=
  decide (600 < hi ∧ hi < 800)

-- Check for a "zero" bit encoding
def is_zero (hi lo : Int) : Bool :=
  is_bit hi && decide (-600 < lo ∧ lo < -400)

-- Check for a "one" bit encoding
def is_one (hi lo : Int) : Bool :=
  is_bit hi && decide (-1700 < lo ∧ lo < -1500)

-- Check for intra-frame space
def is_space (hi lo : Int) : Bool :=
  is_bit hi && decide (lo < -19000)

-- ------------------------------------------------------------------
-- Frame assembler (decode.py next_frame).  The Python function keeps
-- the global buffer `current_frame`; here the buffer is threaded
-- explicitly: the arguments are the buffer before the call, the
-- timing chunk extracted from one log line, and whether the line began a
-- new frame ("Received Raw:").  The result is `.error ()` when the
-- Python code raises (an out-of-range list index on `current_frame[0]`
-- or `current_frame[1]`), otherwise `.ok (emitted frame?, new buffer)`.
-- ------------------------------------------------------------------

def next_frame (buf chunk : List Int) (isStart : Bool) :
    Except Unit (Option (List Int) × List Int) :=
  let cur := if isStart then chunk else buf ++ chunk
  match cur with
  | h :: l :: rest =>
    if is_long_start h l ∧ 139 ≤ (h :: l :: rest).length then
      .ok (some (h :: l :: rest), [])
    else if is_short_start h l ∧ 35 ≤ (h :: l :: rest).length then
      .ok (some (h :: l :: rest), [])
    else .ok (none, h :: l :: rest)
  | _ => .error ()

-- ------------------------------------------------------------------
-- Code symbols.  decode.py builds a string out of the characters
-- 'S', 's', '0', '1', '_', '$', 'x'; the constructors below stand for
-- those characters in the same order.
-- ------------------------------------------------------------------

inductive CodeSym
  | startStd    -- 'S'
  | startShort  -- 's'
  | zero        -- '0'
  | one         -- '1'
  | space       -- '_'
  | stop        -- '$'
  | invalid     -- 'x'
deriving DecidableEq

-- Classification of one high/low pulse pair, in the order of the
-- if/elif chain of next_code.
def classify_pair (h l : Int) : CodeSym :=
  if is_long_start h l then .startStd
  else if is_short_start h l then .startShort
  else if is_zero h l then .zero
  else if is_one h l then .one
  else if is_space h l then .space
  else .invalid

-- The symbol string built by next_code: consecutive non-overlapping
-- pulse pairs, plus the final solo high duration as stop marker.
-- For the odd-length lists that reach this point it coincides with the
-- Python loop over `pairs` followed by the trailing '$'/'x' append.
def to_symbols : List Int → List CodeSym
  | [] => []
  | [h] => [if is_bit h then .stop else .invalid]
  | h :: l :: rest => classify_pair h l :: to_symbols rest

-- Structural shape test for a standard code:
-- current_code[0] == "S" and "_" in current_code and
-- current_code[-1] == "$" and len(current_code) == 70
def standard_shape (c : List CodeSym) : Bool :=
  c.head? == some .startStd && c.contains .space &&
  c.getLast? == some .stop && c.length == 70

-- Structural shape test for a short code:
-- current_code[0] == "s" and "_" not in current_code and
-- current_code[-1] == "$" and len(current_code) == 18
def short_shape (c : List CodeSym) : Bool :=
  c.head? == some .startShort && !(c.contains .space) &&
  c.getLast? == some .stop && c.length == 18

-- decode.py next_code: timings -> validated code (None on failure).
def next_code (timings : List Int) : Option (List CodeSym) :=
  if timings.length % 2 == 0 then none
  else
    let code := to_symbols timings
    if code.contains .invalid then none
    else if standard_shape code then some code
    else if short_shape code then some code
    else none

-- ------------------------------------------------------------------
-- Payload extractor (decode.py next_bytes).
-- ------------------------------------------------------------------

-- Characters stripped by code.lstrip("Ss")
def isStartSym : CodeSym → Bool
  | .startStd => true
  | .startShort => true
  | _ => false

-- Python str.replace("010_", ""): scan left to right, removing each
-- non-overlapping occurrence of the pattern.
def replaceSync : List CodeSym → List CodeSym
  | .zero :: .one :: .zero :: .space :: rest => replaceSync rest
  | c :: rest => c :: replaceSync rest
  | [] => []

-- Python str.rstrip("$"): drop the trailing run of stop markers.
def rstripStop (l : List CodeSym) : List CodeSym :=
  (l.reverse.dropWhile (· == CodeSym.stop)).reverse

-- Binary digit characters accepted by int(-, 2)
def isBinDigit : CodeSym → Bool
  | .zero => true
  | .one => true
  | _ => false

def digit : CodeSym → Nat
  | .one => 1
  | _ => 0

-- Python int(x, 2) accepts '_' as a digit separator, but only strictly
-- between digits: no leading/trailing separator and no two in a row.
-- Any other character raises ValueError.
def pyIntBinValid (s : List CodeSym) : Bool :=
  !(s.isEmpty) &&
  s.all (fun c => isBinDigit c || c == CodeSym.space) &&
  !(s.head? == some CodeSym.space) &&
  !(s.getLast? == some CodeSym.space) &&
  (s.zip s.tail).all (fun p => !(p.1 == CodeSym.space && p.2 == CodeSym.space))

-- Model of Python int(x, 2): `.error ()` is ValueError.
def pyIntBin (s : List CodeSym) : Except Unit Nat :=
  if pyIntBinValid s then
    .ok ((s.filter isBinDigit).foldl (fun a c => 2 * a + digit c) 0)
  else .error ()

-- int(''.join(reversed(group)), 2) for one 8-symbol group
def group_value (g : List CodeSym) : Except Unit Nat :=
  pyIntBin g.reverse

-- decode.py next_bytes: code -> payload bytes.
-- `.ok none` is the `return None` on a bad length; `.error ()` is an
-- uncaught ValueError escaping from int().
def next_bytes (code : List CodeSym) : Except Unit (Option (List Nat)) :=
  let bits := rstripStop (replaceSync (code.dropWhile isStartSym))
  if bits.length % 8 ≠ 0 then .ok none
  else
    ((List.range ((bits.length + 7) / 8)).mapM
      (fun k => group_value ((bits.drop (8 * k)).take 8))).map some

-- ------------------------------------------------------------------
-- Field decoder (decode.py Mode/Fan/HGuide/VGuide/TempDisplay enums and
-- decode_common_data / decode_basic_data / decode_timer_data /
-- decode_footer_data / decode_temp_data / match_checksum / next_data).
-- A Python IntEnum constructor call on an unmapped value raises
-- ValueError; each enum therefore comes with a partial lookup, and the
-- decoders return `.error ()` exactly where Python raises.  The print
-- diagnostics of decode.py carry no data flow and are not modelled.
-- ------------------------------------------------------------------

inductive Mode
  | Auto | Cool | Dry | Fan | Heat
deriving DecidableEq

def Mode.ofNat? : Nat → Option Mode
  | 0 => some .Auto
  | 1 => some .Cool
  | 2 => some .Dry
  | 3 => some .Fan
  | 4 => some .Heat
  | _ => none

inductive Fan
  | Auto | Low | Med | High
deriving DecidableEq

def Fan.ofNat? : Nat → Option Fan
  | 0 => some .Auto
  | 1 => some .Low
  | 2 => some .Med
  | 3 => some .High
  | _ => none

inductive HGuide
  | Closed | Left | MidLeft | Mid | MidRight | Right | Out
  | SwingLeftRight | SwingInOut
deriving DecidableEq

def HGuide.ofNat? : Nat → Option HGuide
  | 0 => some .Closed
  | 2 => some .Left
  | 3 => some .MidLeft
  | 4 => some .Mid
  | 5 => some .MidRight
  | 6 => some .Right
  | 12 => some .Out
  | 1 => some .SwingLeftRight
  | 13 => some .SwingInOut
  | _ => none

-- '"Swing" in res["h_guide"].name'
def HGuide.isSwingName : HGuide → Bool
  | .SwingLeftRight => true
  | .SwingInOut => true
  | _ => false

inductive VGuide
  | Closed | Up | MidUp | Mid | MidDown | Down
  | SwingUpDown | SwingDown | SwingMid | SwingUp
deriving DecidableEq

def VGuide.ofNat? : Nat → Option VGuide
  | 0 => some .Closed
  | 2 => some .Up
  | 3 => some .MidUp
  | 4 => some .Mid
  | 5 => some .MidDown
  | 6 => some .Down
  | 1 => some .SwingUpDown
  | 7 => some .SwingDown
  | 9 => some .SwingMid
  | 11 => some .SwingUp
  | _ => none

-- '"Swing" in res["v_guide"].name'
def VGuide.isSwingName : VGuide → Bool
  | .SwingUpDown => true
  | .SwingDown => true
  | .SwingMid => true
  | .SwingUp => true
  | _ => false

inductive TempDisplay
  | Default | Set | Room | Outdoor
deriving DecidableEq

def TempDisplay.ofNat? : Nat → Option TempDisplay
  | 0 => some .Default
  | 1 => some .Set
  | 2 => some .Room
  | 3 => some .Outdoor
  | _ => none

-- Python `Enum(value)`: ValueError on an unmapped value.
def enumGet {α : Type} : Option α → Except Unit α
  | some a => .ok a
  | none => .error ()

-- The dict produced by decode_common_data
structure CommonData where
  sleep : Bool
  swing : Bool
  fan : Fan
  power : Bool   -- dict key "on"
  mode : Mode
  timer : Bool
  timer_hours : ℚ
  temp : ℚ
  x_fan : Bool
  health : Bool
  light : Bool
  turbo : Bool
  fahrenheit : Bool
  fresh_air : Bool
deriving DecidableEq

-- Decode the first 4 bytes of the standard frames (Basic and Timer).
-- The Enum constructor calls run in the dict-literal order of the
-- Python source: Fan(...) first, then Mode(...).
def decode_common_data (bytes : List Nat) : Except Unit CommonData := do
  let fan ← enumGet (Fan.ofNat? ((bytes.getD 0 0 &&& 0x30) >>> 4))
  let mode ← enumGet (Mode.ofNat? (bytes.getD 0 0 &&& 0x07))
  .ok {
    sleep := decide (bytes.getD 0 0 &&& 0x80 ≠ 0)
    swing := decide (bytes.getD 0 0 &&& 0x40 ≠ 0)
    fan := fan
    power := decide (bytes.getD 0 0 &&& 0x08 ≠ 0)
    mode := mode
    timer := decide (bytes.getD 1 0 &&& 0x80 ≠ 0)
    timer_hours := (((bytes.getD 1 0 &&& 0x60) >>> 5 : Nat) : ℚ) * 10 +
      ((bytes.getD 2 0 &&& 0x0F : Nat) : ℚ) +
      (((bytes.getD 1 0 &&& 0x10) >>> 4 : Nat) : ℚ) * (1 / 2)
    temp := ((bytes.getD 1 0 &&& 0x0F : Nat) : ℚ) +
      (if bytes.getD 3 0 &&& 0x04 ≠ 0 then (33 : ℚ) / 2 else 16)
    x_fan := decide (bytes.getD 2 0 &&& 0x80 ≠ 0)
    health := decide (bytes.getD 2 0 &&& 0x40 ≠ 0)
    light := decide (bytes.getD 2 0 &&& 0x20 ≠ 0)
    turbo := decide (bytes.getD 2 0 &&& 0x10 ≠ 0)
    fahrenheit := decide (bytes.getD 3 0 &&& 0x08 ≠ 0)
    fresh_air := decide (bytes.getD 3 0 &&& 0x01 ≠ 0) }

-- The dict produced by decode_basic_data: the common fields, the
-- Basic-specific fields, with `swing : Option Bool` because the Python
-- code deletes the key again when it is redundant.
structure BasicData where
  sleep : Bool
  swing : Option Bool
  fan : Fan
  power : Bool   -- dict key "on"
  mode : Mode
  timer : Bool
  timer_hours : ℚ
  temp : ℚ
  x_fan : Bool
  health : Bool
  light : Bool
  turbo : Bool
  fahrenheit : Bool
  fresh_air : Bool
  h_guide : HGuide
  v_guide : VGuide
  wifi : Bool
  ifeel : Bool
  temp_display : TempDisplay
  energy_save : Bool
deriving DecidableEq

-- Decode the second 4 bytes of the Basic frame.  The HGuide / VGuide /
-- TempDisplay lookups run in dict-literal order; afterwards
-- `if ("Swing" in h.name or "Swing" in v.name) == res["swing"]:
--    del res["swing"]`.
def decode_basic_data (bytes : List Nat) : Except Unit BasicData := do
  let c ← decode_common_data bytes
  let h ← enumGet (HGuide.ofNat? ((bytes.getD 4 0 &&& 0xF0) >>> 4))
  let v ← enumGet (VGuide.ofNat? (bytes.getD 4 0 &&& 0x0F))
  let td ← enumGet (TempDisplay.ofNat? (bytes.getD 5 0 &&& 0x03))
  .ok {
    sleep := c.sleep
    swing := if (h.isSwingName || v.isSwingName) == c.swing then none
             else some c.swing
    fan := c.fan
    power := c.power
    mode := c.mode
    timer := c.timer
    timer_hours := c.timer_hours
    temp := c.temp
    x_fan := c.x_fan
    health := c.health
    light := c.light
    turbo := c.turbo
    fahrenheit := c.fahrenheit
    fresh_air := c.fresh_air
    h_guide := h
    v_guide := v
    wifi := decide (bytes.getD 5 0 &&& 0x40 ≠ 0)
    ifeel := decide (bytes.getD 5 0 &&& 0x04 ≠ 0)
    temp_display := td
    energy_save := decide (bytes.getD 7 0 &&& 0x04 ≠ 0) }

-- The dict produced by decode_timer_data
structure TimerData where
  sleep : Bool
  swing : Bool
  fan : Fan
  power : Bool   -- dict key "on"
  mode : Mode
  timer : Bool
  timer_hours : ℚ
  temp : ℚ
  x_fan : Bool
  health : Bool
  light : Bool
  turbo : Bool
  fahrenheit : Bool
  fresh_air : Bool
  on_mins : Nat
  overlap : Bool
  off_mins : Nat
  on_set : Bool
  off_set : Bool
deriving DecidableEq

-- Decode the second 4 bytes of the Timer frame
def decode_timer_data (bytes : List Nat) : Except Unit TimerData := do
  let c ← decode_common_data bytes
  .ok {
    sleep := c.sleep
    swing := c.swing
    fan := c.fan
    power := c.power
    mode := c.mode
    timer := c.timer
    timer_hours := c.timer_hours
    temp := c.temp
    x_fan := c.x_fan
    health := c.health
    light := c.light
    turbo := c.turbo
    fahrenheit := c.fahrenheit
    fresh_air := c.fresh_air
    on_mins := ((bytes.getD 5 0 &&& 0x07) <<< 8) ||| bytes.getD 4 0
    overlap := decide (bytes.getD 5 0 &&& 0x80 ≠ 0)
    off_mins := (bytes.getD 6 0 <<< 4) ||| ((bytes.getD 5 0 &&& 0x70) >>> 4)
    on_set := decide (bytes.getD 7 0 &&& 0x02 ≠ 0)
    off_set := decide (bytes.getD 7 0 &&& 0x01 ≠ 0) }

-- The dict produced by decode_temp_data
structure TempData where
  temp : Nat
deriving DecidableEq

-- Decode the Temp frame (its magic-byte check only prints)
def decode_temp_data (bytes : List Nat) : TempData :=
  { temp := bytes.getD 0 0 }

-- Tagged union of the four record kinds ("type" key of the dicts)
inductive Data
  | basic (d : BasicData)
  | timer (d : TimerData)
  | footer
  | temp (d : TempData)
deriving DecidableEq

-- Calculate and compare checksum of the standard frames
-- (decode.py match_checksum; the mismatch branch only prints).
def match_checksum (bytes : List Nat) : Bool :=
  let orig := (bytes.getD 7 0 &&& 0xF0) >>> 4
  let calcsum := ((bytes.getD 0 0 &&& 0x0F) + (bytes.getD 1 0 &&& 0x0F) +
    (bytes.getD 2 0 &&& 0x0F) + (bytes.getD 3 0 &&& 0x0F) +
    ((bytes.getD 4 0 &&& 0xF0) >>> 4) + ((bytes.getD 5 0 &&& 0xF0) >>> 4) +
    ((bytes.getD 6 0 &&& 0xF0) >>> 4) + 0x0A) &&& 0x0F
  orig == calcsum

-- decode.py next_data.  match_checksum is called on the 8-byte path but
-- its boolean is dropped (only the print matters), so it does not appear
-- in the data flow.  `.ok none` is the `return None` for an unknown
-- code type; `.error ()` an uncaught ValueError from an enum lookup.
def next_data (bytes : List Nat) : Except Unit (Option Data) :=
  if bytes.length = 8 then
    if bytes.getD 3 0 &&& 0xF0 = 0x50 then
      (decode_basic_data bytes).map (fun d => some (Data.basic d))
    else if bytes.getD 3 0 &&& 0xF0 = 0x60 then
      (decode_timer_data bytes).map (fun d => some (Data.timer d))
    else if bytes.getD 3 0 &&& 0xF0 = 0xA0 then
      .ok (some Data.footer)
    else .ok none
  else if bytes.length = 2 then
    .ok (some (Data.temp (decode_temp_data bytes)))
  else .ok none

-- ------------------------------------------------------------------
-- Forward encoder for the round-trip property of the spec: a payload
-- is turned into the timing sequence a remote would transmit, with a
-- 9000us/-4500us start pair, for every data bit a lead burst of the
-- given width followed by -560us (zero) or -1690us (one), the sync run
-- zero/one/zero/space (space low = -19800us) between the two 4-byte
-- halves, and a final lead-width stop burst.  The claim prescribes the
-- NEC-nominal 560us lead; the amended round trip uses the 700us lead
-- the classifier is tuned for.
-- ------------------------------------------------------------------

def bitSym (b : Bool) : CodeSym := if b then .one else .zero

def bitLow (b : Bool) : Int := if b then -1690 else -560

def bitTimings (lead : Int) (b : Bool) : List Int := [lead, bitLow b]

-- the 8 bits of one byte in transmission (LSB-first) order
def byteBits (n : Nat) : List Bool :=
  [n.testBit 0, n.testBit 1, n.testBit 2, n.testBit 3,
   n.testBit 4, n.testBit 5, n.testBit 6, n.testBit 7]

def encode_frame (lead : Int) (bytes : List Nat) : List Int :=
  match bytes with
  | [a0, a1, a2, a3, a4, a5, a6, a7] =>
    [9000, -4500] ++
    ((byteBits a0 ++ byteBits a1 ++ byteBits a2 ++ byteBits a3).flatMap
      (bitTimings lead)) ++
    [lead, -560, lead, -1690, lead, -560, lead, -19800] ++
    ((byteBits a4 ++ byteBits a5 ++ byteBits a6 ++ byteBits a7).flatMap
      (bitTimings lead)) ++
    [lead]
  | _ => []

-- Code encoder and payload extractor composed, as in the driver loop:
-- a next_code failure makes the driver skip the frame (no bytes).
def decode_pipeline (timings : List Int) : Except Unit (Option (List Nat)) :=
  match next_code timings with
  | none => .ok none
  | some code => next_bytes code

set_option maxRecDepth 16384

-- ------------------------------------------------------------------
-- Generic helpers
-- ------------------------------------------------------------------

instance {ε α : Type} [DecidableEq ε] [DecidableEq α] : DecidableEq (Except ε α) :=
  fun a b =>
    match a, b with
    | .ok x, .ok y =>
      if h : x = y then .isTrue (by rw [h]) else .isFalse (by simp [h])
    | .error x, .error y =>
      if h : x = y then .isTrue (by rw [h]) else .isFalse (by simp [h])
    | .ok _, .error _ => .isFalse (by simp)
    | .error _, .ok _ => .isFalse (by simp)

-- low nibble of a byte
lemma and_0F_eq_mod : ∀ b < 256, b &&& 0x0F = b % 16 := by decide

-- high nibble of a byte, as the source writes it
lemma and_F0_shift_eq_div : ∀ b < 256, (b &&& 0xF0) >>> 4 = b / 16 := by decide

-- high nibble of a byte, as the claim writes it
lemma shift_4_eq_div : ∀ b < 256, b >>> 4 = b / 16 := by decide

-- ------------------------------------------------------------------
-- C1.  Checksum validator.
-- ------------------------------------------------------------------

/-- C1: for every 8-byte payload, match_checksum passes exactly when the
high nibble of byte 7 equals the sum of the low nibbles of bytes 0..3
plus the high nibbles of bytes 4..6 plus 0x0A, reduced mod 16. -/
theorem c1_checksum_validator (b0 b1 b2 b3 b4 b5 b6 b7 : Nat)
    (h0 : b0 < 256) (h1 : b1 < 256) (h2 : b2 < 256) (h3 : b3 < 256)
    (h4 : b4 < 256) (h5 : b5 < 256) (h6 : b6 < 256) (h7 : b7 < 256) :
    match_checksum [b0, b1, b2, b3, b4, b5, b6, b7] = true ↔
      b7 >>> 4 =
        ((b0 &&& 0x0F) + (b1 &&& 0x0F) + (b2 &&& 0x0F) + (b3 &&& 0x0F) +
         (b4 >>> 4) + (b5 >>> 4) + (b6 >>> 4) + 0x0A) % 16 := by
  have g0 : List.getD [b0, b1, b2, b3, b4, b5, b6, b7] 0 0 = b0 := rfl
  have g1 : List.getD [b0, b1, b2, b3, b4, b5, b6, b7] 1 0 = b1 := rfl
  have g2 : List.getD [b0, b1, b2, b3, b4, b5, b6, b7] 2 0 = b2 := rfl
  have g3 : List.getD [b0, b1, b2, b3, b4, b5, b6, b7] 3 0 = b3 := rfl
  have g4 : List.getD [b0, b1, b2, b3, b4, b5, b6, b7] 4 0 = b4 := rfl
  have g5 : List.getD [b0, b1, b2, b3, b4, b5, b6, b7] 5 0 = b5 := rfl
  have g6 : List.getD [b0, b1, b2, b3, b4, b5, b6, b7] 6 0 = b6 := rfl
  have g7 : List.getD [b0, b1, b2, b3, b4, b5, b6, b7] 7 0 = b7 := rfl
  have hm0 : b0 % 16 < 16 := Nat.mod_lt _ (by omega)
  have hm1 : b1 % 16 < 16 := Nat.mod_lt _ (by omega)
  have hm2 : b2 % 16 < 16 := Nat.mod_lt _ (by omega)
  have hm3 : b3 % 16 < 16 := Nat.mod_lt _ (by omega)
  have hd4 : b4 / 16 < 16 := by omega
  have hd5 : b5 / 16 < 16 := by omega
  have hd6 : b6 / 16 < 16 := by omega
  have hsum : b0 % 16 + b1 % 16 + b2 % 16 + b3 % 16 +
      b4 / 16 + b5 / 16 + b6 / 16 + 10 < 256 := by omega
  simp only [match_checksum, g0, g1, g2, g3, g4, g5, g6, g7,
    and_0F_eq_mod b0 h0, and_0F_eq_mod b1 h1, and_0F_eq_mod b2 h2,
    and_0F_eq_mod b3 h3, and_F0_shift_eq_div b4 h4,
    and_F0_shift_eq_div b5 h5, and_F0_shift_eq_div b6 h6,
    and_F0_shift_eq_div b7 h7, shift_4_eq_div b4 h4,
    shift_4_eq_div b5 h5, shift_4_eq_div b6 h6, shift_4_eq_div b7 h7]
  rw [and_0F_eq_mod _ hsum, beq_iff_eq]

/-- C1 witness: the theorem at the concrete payload 00 00 00 50 00 00 00 A0,
whose received checksum 0xA matches the computed one. -/
theorem c1_checksum_validator_witness :
    ((0 : Nat) < 256 ∧ (0x50 : Nat) < 256 ∧ (0xA0 : Nat) < 256) ∧
      (match_checksum [0, 0, 0, 0x50, 0, 0, 0, 0xA0] = true ↔
        (0xA0 : Nat) >>> 4 =
          ((0 &&& 0x0F) + (0 &&& 0x0F) + (0 &&& 0x0F) + (0x50 &&& 0x0F) +
           ((0 : Nat) >>> 4) + ((0 : Nat) >>> 4) + ((0 : Nat) >>> 4) + 0x0A) % 16) :=
  ⟨by decide,
   c1_checksum_validator 0 0 0 0x50 0 0 0 0xA0 (by decide) (by decide)
     (by decide) (by decide) (by decide) (by decide) (by decide) (by decide)⟩

-- ------------------------------------------------------------------
-- C4.  The frame assembler is not total: with fewer than two buffered
-- durations the Python code raises IndexError on current_frame[1].
-- ------------------------------------------------------------------

/-- C4: feeding a frame-start chunk holding a single duration makes the
assembler fault (the Python code indexes current_frame[1] which does not
exist), contradicting the claim that feed never crashes. -/
theorem c4_feed_crash : next_frame [] [9000] true = .error () := rfl

-- ------------------------------------------------------------------
-- C6.  LSB-first byte extraction.
-- ------------------------------------------------------------------

/-- C6: a run of 8 bit symbols produces the byte whose bit 0 is the
first transmitted bit and bit 7 the eighth; in particular the bit
string 01010011 in transmission order decodes to 0xCA. -/
theorem c6_lsb_first :
    (∀ t0 t1 t2 t3 t4 t5 t6 t7 : Bool,
      group_value [bitSym t0, bitSym t1, bitSym t2, bitSym t3,
                   bitSym t4, bitSym t5, bitSym t6, bitSym t7] =
        .ok ((if t0 then 1 else 0) + 2 * (if t1 then 1 else 0) +
             4 * (if t2 then 1 else 0) + 8 * (if t3 then 1 else 0) +
             16 * (if t4 then 1 else 0) + 32 * (if t5 then 1 else 0) +
             64 * (if t6 then 1 else 0) + 128 * (if t7 then 1 else 0))) ∧
    group_value [.zero, .one, .zero, .one, .zero, .zero, .one, .one] =
      .ok 0xCA := by
  constructor
  · decide
  · decide

-- ------------------------------------------------------------------
-- C2 counterexample: a 70-symbol code with TWO space symbols is
-- accepted, because next_code only tests '"_" in current_code'.
-- ------------------------------------------------------------------

/-- C2 counterexample: the 139-duration frame below encodes start, two
spaces, 66 ones and a stop; its 70-symbol code contains two Space
symbols yet next_code accepts it, refuting the claim that any
70-symbol sequence with two or more Space symbols is rejected. -/
theorem c2_counterexample :
    next_code ([9000, -4500, 700, -19800, 700, -19800] ++
        (List.replicate 66 [(700 : Int), -1690]).flatten ++ [700]) =
      some (CodeSym.startStd :: CodeSym.space :: CodeSym.space ::
        List.replicate 66 CodeSym.one ++ [CodeSym.stop]) ∧
    (CodeSym.startStd :: CodeSym.space :: CodeSym.space ::
        List.replicate 66 CodeSym.one ++ [CodeSym.stop]).count CodeSym.space = 2 ∧
    (CodeSym.startStd :: CodeSym.space :: CodeSym.space ::
        List.replicate 66 CodeSym.one ++ [CodeSym.stop]).length = 70 := by
  refine ⟨by decide, by decide, by decide⟩

-- ------------------------------------------------------------------
-- C3 counterexample: a completed frame is the whole buffer, which can
-- exceed 139 durations; it is not cut down to the first 139.
-- ------------------------------------------------------------------

/-- C3 counterexample: a single 140-duration chunk starting with a
StartStandard pair is returned whole (length 140), refuting the claim
that the completed Raw Frame consists of exactly the first 139
buffered durations. -/
theorem c3_counterexample :
    next_frame [] (9000 :: -4500 :: List.replicate 138 700) true =
      .ok (some (9000 :: -4500 :: List.replicate 138 700), []) ∧
    (9000 :: -4500 :: List.replicate 138 (700 : Int)).length = 140 := by
  refine ⟨by decide, by decide⟩

-- ------------------------------------------------------------------
-- C5 counterexample: a validated Standard code whose single space is
-- not part of a 010_ run leaves 68 bit symbols, so extraction fails.
-- ------------------------------------------------------------------

/-- C5 counterexample: the 139-duration frame below yields a validated
Standard code (start, space, 67 ones, stop), but its space does not
terminate a Zero-One-Zero-Space run, 68 symbols remain after removal,
and next_bytes fails - refuting the claim that every validated
Standard code yields an 8-byte payload. -/
theorem c5_counterexample :
    next_code ([9000, -4500, 700, -19800] ++
        (List.replicate 67 [(700 : Int), -1690]).flatten ++ [700]) =
      some (CodeSym.startStd :: CodeSym.space ::
        List.replicate 67 CodeSym.one ++ [CodeSym.stop]) ∧
    next_bytes (CodeSym.startStd :: CodeSym.space ::
        List.replicate 67 CodeSym.one ++ [CodeSym.stop]) = .ok none := by
  refine ⟨by decide, by decide⟩

-- ------------------------------------------------------------------
-- C7 counterexample: with the NEC-nominal 560us bit-lead bursts the
-- classifier (tuned to 600 < hi < 800) rejects every data bit, so the
-- claimed round trip fails.
-- ------------------------------------------------------------------

/-- C7 counterexample: encoding the payload 00 00 00 50 00 00 00 A0 with
560us bit-lead bursts and running it through the pipeline produces no
bytes at all (every bit classifies as Invalid), refuting the claimed
round trip at the nominal 560us width. -/
theorem c7_counterexample :
    decode_pipeline (encode_frame 560 [0, 0, 0, 0x50, 0, 0, 0, 0xA0]) =
      .ok none ∧
    decode_pipeline (encode_frame 560 [0, 0, 0, 0x50, 0, 0, 0, 0xA0]) ≠
      .ok (some [0, 0, 0, 0x50, 0, 0, 0, 0xA0]) := by
  refine ⟨by decide, by decide⟩


-- ------------------------------------------------------------------
-- C2 (amended): acceptance characterisation of next_code.
-- ------------------------------------------------------------------

/-- C2 (amended): the Code Encoder accepts exactly the odd-length frames
whose symbol sequence has no Invalid symbol and either the standard
shape - first symbol StartStandard, AT LEAST one Space symbol, last
symbol Stop, length exactly 70 - or the short shape - first symbol
StartShort, zero Space symbols, last symbol Stop, length exactly 18.
(The source tests membership of the space character, not its count, so
a 70-symbol code with two or more Space symbols is accepted.) -/
theorem c2_code_shape_amended (timings : List Int) (c : List CodeSym) :
    next_code timings = some c ↔
      timings.length % 2 = 1 ∧ c = to_symbols timings ∧
      (to_symbols timings).contains CodeSym.invalid = false ∧
      (standard_shape (to_symbols timings) = true ∨
       short_shape (to_symbols timings) = true) := by
  unfold next_code
  by_cases h0 : timings.length % 2 = 0
  · have h1 : ¬ timings.length % 2 = 1 := by omega
    simp [h0, h1]
  · have h1 : timings.length % 2 = 1 := by omega
    rw [if_neg (by simp [h0])]
    by_cases hx : (to_symbols timings).contains CodeSym.invalid = true
    · rw [if_pos hx]
      constructor
      · intro h'
        exact Option.noConfusion h'
      · rintro ⟨-, -, hcf, -⟩
        rw [hx] at hcf
        cases hcf
    · rw [if_neg hx]
      by_cases hstd : standard_shape (to_symbols timings) = true
      · rw [if_pos hstd]
        constructor
        · rintro h'
          exact ⟨h1, (Option.some_inj.mp h').symm, by simpa using hx, Or.inl hstd⟩
        · rintro ⟨-, rfl, -, -⟩
          rfl
      · rw [if_neg hstd]
        by_cases hsh : short_shape (to_symbols timings) = true
        · rw [if_pos hsh]
          constructor
          · rintro h'
            exact ⟨h1, (Option.some_inj.mp h').symm, by simpa using hx, Or.inr hsh⟩
          · rintro ⟨-, rfl, -, -⟩
            rfl
        · rw [if_neg hsh]
          constructor
          · rintro h'
            exact absurd h' (by simp)
          · rintro ⟨-, -, -, hor⟩
            rcases hor with h' | h'
            · exact absurd h' hstd
            · exact absurd h' hsh

-- ------------------------------------------------------------------
-- C3 (amended): the frame assembler emits the WHOLE buffer.
-- ------------------------------------------------------------------

/-- C3 (amended): when after appending the buffered durations start with
a pair classifying as StartStandard and number at least 139 (or
StartShort and at least 35), next_frame returns the entire buffer - not
its first 139 (resp. 35) durations - as the completed Raw Frame and
resets the buffer to empty; chunks concatenating to exactly 139 thus
yield exactly those 139 durations and an empty buffer. -/
theorem c3_frame_assembler_amended (buf chunk : List Int) (isStart : Bool)
    (h l : Int) (rest : List Int)
    (hbuf : (if isStart then chunk else buf ++ chunk) = h :: l :: rest)
    (hcond : (is_long_start h l = true ∧ 139 ≤ (h :: l :: rest).length) ∨
             (is_short_start h l = true ∧ 35 ≤ (h :: l :: rest).length)) :
    next_frame buf chunk isStart = .ok (some (h :: l :: rest), []) := by
  unfold next_frame
  rw [hbuf]
  rcases hcond with ⟨hs, hlen⟩ | ⟨hs, hlen⟩
  · have hlen' : 137 ≤ rest.length := by
      simp only [List.length_cons] at hlen
      omega
    simp [hs, hlen']
  · have hnl : is_long_start h l = false := by
      simp only [is_short_start, decide_eq_true_eq] at hs
      simp only [is_long_start, decide_eq_false_iff_not, not_and]
      intro h8
      omega
    have hlen' : 33 ≤ rest.length := by
      simp only [List.length_cons] at hlen
      omega
    simp [hs, hnl, hlen']

/-- C3 witness: a frame split over two chunks concatenating to exactly
139 durations is emitted whole and the buffer resets to empty. -/
theorem c3_frame_assembler_amended_witness :
    next_frame (9000 :: -4500 :: List.replicate 70 700)
        (List.replicate 67 700) false =
      .ok (some (9000 :: -4500 :: List.replicate 137 700), []) :=
  c3_frame_assembler_amended _ _ false 9000 (-4500)
    (List.replicate 137 700) (by decide) (Or.inl ⟨by decide, by decide⟩)

-- ------------------------------------------------------------------
-- C8: failure conditions of the field decoder.
-- ------------------------------------------------------------------

-- discriminator nibble, source form vs claim form
lemma nibble_disc : ∀ b < 256,
    ((b &&& 0xF0 = 0x50) ↔ b >>> 4 = 0x5) ∧
    ((b &&& 0xF0 = 0x60) ↔ b >>> 4 = 0x6) ∧
    ((b &&& 0xF0 = 0xA0) ↔ b >>> 4 = 0xA) := by decide

/-- C8: next_data returns the unknown-type failure exactly when the
payload has length 8 with a frame-type nibble (high nibble of byte 3)
outside 0x5/0x6/0xA, or a length that is neither 8 nor 2; every 2-byte
payload decodes as Temp.  Advisory diagnostics (checksum, reserved
bits, magic byte) are prints only and never make decoding fail. -/
theorem c8_field_decoder_failures (bytes : List Nat)
    (hb : ∀ b ∈ bytes, b < 256) :
    (next_data bytes = .ok none ↔
      ((bytes.length = 8 ∧ (bytes.getD 3 0) >>> 4 ≠ 0x5 ∧
        (bytes.getD 3 0) >>> 4 ≠ 0x6 ∧ (bytes.getD 3 0) >>> 4 ≠ 0xA) ∨
       (bytes.length ≠ 8 ∧ bytes.length ≠ 2))) ∧
    (bytes.length = 2 →
      next_data bytes = .ok (some (Data.temp (decode_temp_data bytes)))) := by
  by_cases h8 : bytes.length = 8
  · have hb3 : bytes.getD 3 0 < 256 := by
      have h3lt : 3 < bytes.length := by omega
      rw [List.getD_eq_getElem bytes 0 h3lt]
      exact hb _ (List.getElem_mem h3lt)
    have hnd := nibble_disc _ hb3
    refine ⟨?_, fun h2 => absurd (h8.symm.trans h2) (by decide)⟩
    unfold next_data
    rw [if_pos h8]
    by_cases hd5 : bytes.getD 3 0 &&& 0xF0 = 0x50
    · rw [if_pos hd5]
      have h5 : bytes.getD 3 0 >>> 4 = 0x5 := hnd.1.mp hd5
      constructor
      · intro h'
        cases hres : decode_basic_data bytes <;> rw [hres] at h' <;>
          simp [Except.map] at h'
      · rintro (⟨-, h5ne, -, -⟩ | ⟨h8', -⟩)
        · exact absurd h5 h5ne
        · exact absurd h8 h8'
    · rw [if_neg hd5]
      by_cases hd6 : bytes.getD 3 0 &&& 0xF0 = 0x60
      · rw [if_pos hd6]
        have h6 : bytes.getD 3 0 >>> 4 = 0x6 := hnd.2.1.mp hd6
        constructor
        · intro h'
          cases hres : decode_timer_data bytes <;> rw [hres] at h' <;>
            simp [Except.map] at h'
        · rintro (⟨-, -, h6ne, -⟩ | ⟨h8', -⟩)
          · exact absurd h6 h6ne
          · exact absurd h8 h8'
      · rw [if_neg hd6]
        by_cases hdA : bytes.getD 3 0 &&& 0xF0 = 0xA0
        · rw [if_pos hdA]
          have hA : bytes.getD 3 0 >>> 4 = 0xA := hnd.2.2.mp hdA
          constructor
          · intro h'
            exact absurd h' (by simp)
          · rintro (⟨-, -, -, hAne⟩ | ⟨h8', -⟩)
            · exact absurd hA hAne
            · exact absurd h8 h8'
        · rw [if_neg hdA]
          have h5 : ¬ bytes.getD 3 0 >>> 4 = 0x5 := fun h => hd5 (hnd.1.mpr h)
          have h6 : ¬ bytes.getD 3 0 >>> 4 = 0x6 := fun h => hd6 (hnd.2.1.mpr h)
          have hA : ¬ bytes.getD 3 0 >>> 4 = 0xA := fun h => hdA (hnd.2.2.mpr h)
          exact ⟨fun _ => Or.inl ⟨h8, h5, h6, hA⟩, fun _ => rfl⟩
  · unfold next_data
    rw [if_neg h8]
    by_cases h2 : bytes.length = 2
    · rw [if_pos h2]
      refine ⟨?_, fun _ => rfl⟩
      constructor
      · intro h'
        exact absurd h' (by simp)
      · rintro (⟨h8', -⟩ | ⟨-, h2'⟩)
        · exact absurd h8' h8
        · exact absurd h2 h2'
    · rw [if_neg h2]
      exact ⟨⟨fun _ => Or.inr ⟨h8, h2⟩, fun _ => rfl⟩,
        fun h2' => absurd h2' h2⟩

/-- C8 witness: the Basic payload 00 00 00 50 00 00 00 A0 (length 8,
discriminator 0x5) is not rejected, and the length-2 implication is
vacuous for it. -/
theorem c8_field_decoder_failures_witness :
    (∀ b ∈ ([0, 0, 0, 0x50, 0, 0, 0, 0xA0] : List Nat), b < 256) ∧
    ((next_data [0, 0, 0, 0x50, 0, 0, 0, 0xA0] = .ok none ↔
      ((([0, 0, 0, 0x50, 0, 0, 0, 0xA0] : List Nat).length = 8 ∧
        (([0, 0, 0, 0x50, 0, 0, 0, 0xA0] : List Nat).getD 3 0) >>> 4 ≠ 0x5 ∧
        (([0, 0, 0, 0x50, 0, 0, 0, 0xA0] : List Nat).getD 3 0) >>> 4 ≠ 0x6 ∧
        (([0, 0, 0, 0x50, 0, 0, 0, 0xA0] : List Nat).getD 3 0) >>> 4 ≠ 0xA) ∨
       (([0, 0, 0, 0x50, 0, 0, 0, 0xA0] : List Nat).length ≠ 8 ∧
        ([0, 0, 0, 0x50, 0, 0, 0, 0xA0] : List Nat).length ≠ 2))) ∧
     (([0, 0, 0, 0x50, 0, 0, 0, 0xA0] : List Nat).length = 2 →
      next_data [0, 0, 0, 0x50, 0, 0, 0, 0xA0] =
        .ok (some (Data.temp
          (decode_temp_data [0, 0, 0, 0x50, 0, 0, 0, 0xA0]))))) :=
  ⟨by decide, c8_field_decoder_failures _ (by decide)⟩

-- ------------------------------------------------------------------
-- Machinery for C5 and C7: behaviour of the strip / replace / group
-- operations of next_bytes, and symbol computation for encoded frames.
-- ------------------------------------------------------------------

-- step equation of replaceSync when the head does not open a sync run
lemma replaceSync_cons_of_take3 (c : CodeSym) (rest : List CodeSym)
    (hc : rest.take 3 ≠ [.one, .zero, .space]) :
    replaceSync (c :: rest) = c :: replaceSync rest := by
  rcases rest with _ | ⟨d1, _ | ⟨d2, _ | ⟨d3, r⟩⟩⟩
  · cases c <;> rfl
  · cases c <;> cases d1 <;> rfl
  · cases c <;> cases d1 <;> cases d2 <;> rfl
  · cases c <;> try rfl
    cases d1 <;> try rfl
    cases d2 <;> try rfl
    cases d3 <;> try rfl
    exact absurd rfl hc

lemma take3_ne_of_no_space (r : List CodeSym) (hr : CodeSym.space ∉ r) :
    r.take 3 ≠ [.one, .zero, .space] := by
  intro heq
  exact hr (List.take_subset 3 r
    (heq ▸ (by simp : CodeSym.space ∈ [CodeSym.one, CodeSym.zero, CodeSym.space])))

lemma replaceSync_of_no_space (l : List CodeSym) (hl : CodeSym.space ∉ l) :
    replaceSync l = l := by
  induction l with
  | nil => rfl
  | cons c r ih =>
    rw [replaceSync_cons_of_take3 c r
      (take3_ne_of_no_space r (fun h => hl (List.mem_cons_of_mem c h)))]
    rw [ih (fun h => hl (List.mem_cons_of_mem c h))]

lemma take3_ne_append_sync (xs ys : List CodeSym) (h : CodeSym.space ∉ xs) :
    (xs ++ .zero :: .one :: .zero :: .space :: ys).take 3 ≠
      [.one, .zero, .space] := by
  rcases xs with _ | ⟨d1, _ | ⟨d2, _ | ⟨d3, r⟩⟩⟩
  · simp
  · simp
  · simp
  · intro heq
    simp only [List.cons_append, List.take_succ_cons, List.take_zero,
      List.cons.injEq, and_true] at heq
    obtain ⟨rfl, rfl, rfl⟩ := heq
    simp at h

lemma replaceSync_append_sync (xs ys : List CodeSym) (h : CodeSym.space ∉ xs) :
    replaceSync (xs ++ .zero :: .one :: .zero :: .space :: ys) =
      xs ++ replaceSync ys := by
  induction xs with
  | nil => rfl
  | cons c xs' ih =>
    have h' : CodeSym.space ∉ xs' := fun hm => h (List.mem_cons_of_mem c hm)
    rw [List.cons_append,
      replaceSync_cons_of_take3 c _ (take3_ne_append_sync xs' ys h'),
      ih h', List.cons_append]

lemma rstripStop_append_stop (l : List CodeSym)
    (hl : CodeSym.stop ∉ l) : rstripStop (l ++ [.stop]) = l := by
  have h1 : (l ++ [CodeSym.stop]).reverse = CodeSym.stop :: l.reverse := by simp
  rw [rstripStop, h1, List.dropWhile_cons]
  simp only [beq_self_eq_true, if_true]
  have h2 : List.dropWhile (· == CodeSym.stop) l.reverse = l.reverse := by
    cases hr : l.reverse with
    | nil => rfl
    | cons a t =>
      have ha : a ∈ l := by
        have : a ∈ l.reverse := by
          rw [hr]
          exact List.mem_cons_self a t
        simpa using this
      rw [List.dropWhile_cons, if_neg]
      simp only [beq_iff_eq]
      intro hstop
      exact hl (hstop ▸ ha)
  rw [h2, List.reverse_reverse]

lemma dropWhile_not_start (c : CodeSym) (hc : isStartSym c = false)
    (rest : List CodeSym) :
    (c :: rest).dropWhile isStartSym = c :: rest := by
  rw [List.dropWhile_cons, if_neg]
  simp [hc]

lemma pyIntBin_ok_of_digits (s : List CodeSym) (hne : s ≠ [])
    (hs : ∀ c ∈ s, isBinDigit c = true) : ∃ v, pyIntBin s = .ok v := by
  have hval : pyIntBinValid s = true := by
    have hnsp : ∀ c ∈ s, ¬(c = CodeSym.space) := by
      intro c hc hsp
      have := hs c hc
      rw [hsp] at this
      exact absurd this (by decide)
    unfold pyIntBinValid
    refine (Bool.and_eq_true _ _).mpr ⟨(Bool.and_eq_true _ _).mpr
      ⟨(Bool.and_eq_true _ _).mpr ⟨(Bool.and_eq_true _ _).mpr ⟨?_, ?_⟩, ?_⟩, ?_⟩, ?_⟩
    · simp [hne]
    · rw [List.all_eq_true]
      intro c hc
      simp [hs c hc]
    · cases hh : s.head? with
      | none => rfl
      | some a =>
        have ha : a ∈ s := List.mem_of_mem_head? hh
        simp [hnsp a ha]
    · cases hh : s.getLast? with
      | none => rfl
      | some a =>
        have ha : a ∈ s := List.mem_of_mem_getLast? hh
        simp [hnsp a ha]
    · rw [List.all_eq_true]
      rintro ⟨p, q⟩ hpq
      have hp : p ∈ s := (List.of_mem_zip hpq).1
      simp [hnsp p hp]
  exact ⟨_, by rw [pyIntBin, if_pos hval]⟩

lemma mapM_ok_of_forall {α : Type} (f : α → Except Unit Nat) :
    ∀ xs : List α, (∀ x ∈ xs, ∃ v, f x = .ok v) →
    ∃ vs, xs.mapM f = .ok vs ∧ vs.length = xs.length := by
  intro xs
  induction xs with
  | nil => exact fun _ => ⟨[], rfl, rfl⟩
  | cons a l ih =>
    intro h
    obtain ⟨v, hv⟩ := h a (List.mem_cons_self a l)
    obtain ⟨vs, hvs, hlen⟩ := ih (fun x hx => h x (List.mem_cons_of_mem a hx))
    refine ⟨v :: vs, ?_, by simp [hlen]⟩
    rw [List.mapM_cons, hv, hvs]
    rfl

lemma chunks_mapM_ok (l : List CodeSym)
    (hdig : ∀ c ∈ l, isBinDigit c = true) (n : Nat) (hlen : l.length = 8 * n) :
    ∃ vs, (List.range n).mapM
        (fun k => group_value ((l.drop (8 * k)).take 8)) = .ok vs ∧
      vs.length = n := by
  have hall : ∀ k ∈ List.range n,
      ∃ v, group_value ((l.drop (8 * k)).take 8) = .ok v := by
    intro k hk
    have hklt : k < n := List.mem_range.mp hk
    have hsub : ∀ c ∈ (l.drop (8 * k)).take 8, c ∈ l := by
      intro c hc
      exact List.drop_subset _ l (List.take_subset _ _ hc)
    have hne : ((l.drop (8 * k)).take 8).reverse ≠ [] := by
      have hdlen : (l.drop (8 * k)).length = 8 * n - 8 * k := by simp [hlen]
      have htlen : ((l.drop (8 * k)).take 8).length = 8 := by
        rw [List.length_take, hdlen]
        omega
      intro hnil
      rw [← List.length_reverse, hnil] at htlen
      simp at htlen
    exact pyIntBin_ok_of_digits _ hne
      (fun c hc => hdig c (hsub c (by simpa using hc)))
  obtain ⟨vs, hvs, hl⟩ := mapM_ok_of_forall _ (List.range n) hall
  exact ⟨vs, hvs, by simpa using hl⟩

lemma no_space_of_bits (l : List CodeSym)
    (hl : ∀ s ∈ l, s = CodeSym.zero ∨ s = CodeSym.one) :
    CodeSym.space ∉ l := by
  intro hm
  rcases hl _ hm with h | h <;> exact CodeSym.noConfusion h

lemma no_stop_of_bits (l : List CodeSym)
    (hl : ∀ s ∈ l, s = CodeSym.zero ∨ s = CodeSym.one) :
    CodeSym.stop ∉ l := by
  intro hm
  rcases hl _ hm with h | h <;> exact CodeSym.noConfusion h

/-- C5 (amended): for a code accepted as Standard, the extractor strips
the leading start symbols, removes every Zero-One-Zero-Space run, strips
the trailing Stop run, and fails (returns nothing) whenever the
remaining symbol count is not a multiple of 8; a Standard code yields an
8-byte payload when it has the canonical form start + 32 data bits +
Zero-One-Zero-Space sync run + 32 data bits + stop (the counterexample
shows that not every accepted Standard code has this form, so not every
one yields a payload). -/
theorem c5_payload_extractor_amended :
    (∀ code : List CodeSym,
      (rstripStop (replaceSync (code.dropWhile isStartSym))).length % 8 ≠ 0 →
      next_bytes code = .ok none) ∧
    (∀ a b : List CodeSym,
      (∀ s ∈ a, s = CodeSym.zero ∨ s = CodeSym.one) →
      (∀ s ∈ b, s = CodeSym.zero ∨ s = CodeSym.one) →
      a.length = 32 → b.length = 32 →
      standard_shape (CodeSym.startStd :: (a ++ (CodeSym.zero ::
        CodeSym.one :: CodeSym.zero :: CodeSym.space ::
        (b ++ [CodeSym.stop])))) = true ∧
      ∃ p, next_bytes (CodeSym.startStd :: (a ++ (CodeSym.zero ::
        CodeSym.one :: CodeSym.zero :: CodeSym.space ::
        (b ++ [CodeSym.stop])))) = .ok (some p) ∧ p.length = 8) := by
  constructor
  · intro code hlen
    rw [next_bytes, if_pos hlen]
  · intro a b ha hb ha32 hb32
    have hspa : CodeSym.space ∉ a := no_space_of_bits a ha
    have hspb : CodeSym.space ∉ b := no_space_of_bits b hb
    constructor
    · unfold standard_shape
      refine (Bool.and_eq_true _ _).mpr ⟨(Bool.and_eq_true _ _).mpr
        ⟨(Bool.and_eq_true _ _).mpr ⟨?_, ?_⟩, ?_⟩, ?_⟩
      · rfl
      · simp
      · rw [show CodeSym.startStd :: (a ++ (CodeSym.zero :: CodeSym.one ::
            CodeSym.zero :: CodeSym.space :: (b ++ [CodeSym.stop]))) =
            (CodeSym.startStd :: (a ++ (CodeSym.zero :: CodeSym.one ::
              CodeSym.zero :: CodeSym.space :: b))) ++ [CodeSym.stop]
            from by simp, List.getLast?_concat]
        rfl
      · simp [ha32, hb32]
    · rcases a with _ | ⟨a0, a'⟩
      · simp at ha32
      have ha0 : isStartSym a0 = false := by
        rcases ha a0 (List.mem_cons_self a0 a') with h | h <;> rw [h] <;> rfl
      have hstart : isStartSym CodeSym.startStd = true := rfl
      have hdw : (CodeSym.startStd :: ((a0 :: a') ++ (CodeSym.zero ::
          CodeSym.one :: CodeSym.zero :: CodeSym.space ::
          (b ++ [CodeSym.stop])))).dropWhile isStartSym =
          (a0 :: a') ++ (CodeSym.zero :: CodeSym.one :: CodeSym.zero ::
            CodeSym.space :: (b ++ [CodeSym.stop])) := by
        rw [List.dropWhile_cons, if_pos hstart, List.cons_append,
          dropWhile_not_start a0 ha0, ← List.cons_append]
      have hrep : replaceSync ((a0 :: a') ++ (CodeSym.zero :: CodeSym.one ::
          CodeSym.zero :: CodeSym.space :: (b ++ [CodeSym.stop]))) =
          (a0 :: a') ++ (b ++ [CodeSym.stop]) := by
        rw [replaceSync_append_sync _ _ hspa,
          replaceSync_of_no_space (b ++ [CodeSym.stop])]
        intro hm
        rcases List.mem_append.mp hm with hm' | hm'
        · exact hspb hm'
        · simp at hm'
      have hstrip : rstripStop ((a0 :: a') ++ (b ++ [CodeSym.stop])) =
          (a0 :: a') ++ b := by
        rw [← List.append_assoc]
        refine rstripStop_append_stop _ ?_
        intro hm
        rcases List.mem_append.mp hm with hm' | hm'
        · exact no_stop_of_bits _ ha hm'
        · exact no_stop_of_bits _ hb hm'
      have hblen : ((a0 :: a') ++ b).length = 64 := by
        rw [List.length_append, ha32, hb32]
      have hdig : ∀ c ∈ (a0 :: a') ++ b, isBinDigit c = true := by
        intro c hc
        rcases List.mem_append.mp hc with hm' | hm'
        · rcases ha c hm' with h | h <;> rw [h] <;> rfl
        · rcases hb c hm' with h | h <;> rw [h] <;> rfl
      obtain ⟨vs, hvs, hvl⟩ := chunks_mapM_ok _ hdig 8 (by rw [hblen])
      refine ⟨vs, ?_, hvl⟩
      rw [next_bytes]
      simp only [hdw, hrep, hstrip, hblen]
      rw [if_neg (by omega)]
      have h8 : (64 + 7) / 8 = 8 := by norm_num
      rw [h8, hvs]
      rfl

lemma to_symbols_cons2 (h l : Int) (rest : List Int) :
    to_symbols (h :: l :: rest) = classify_pair h l :: to_symbols rest := rfl

lemma classify_start_pair : classify_pair 9000 (-4500) = CodeSym.startStd := by
  decide

lemma classify_bit_pair : ∀ b : Bool,
    classify_pair 700 (bitLow b) = bitSym b := by decide

lemma to_symbols_flatMap (bs : List Bool) (rest : List Int) :
    to_symbols (bs.flatMap (bitTimings 700) ++ rest) =
      bs.map bitSym ++ to_symbols rest := by
  induction bs with
  | nil => simp
  | cons b t ih =>
    have e : ((b :: t).flatMap (bitTimings 700)) ++ rest =
        700 :: bitLow b :: (t.flatMap (bitTimings 700) ++ rest) := by
      simp [bitTimings]
    rw [e, to_symbols_cons2, classify_bit_pair, ih, List.map_cons,
      List.cons_append]

lemma flatMap_bitTimings_length (bs : List Bool) :
    (bs.flatMap (bitTimings 700)).length = 2 * bs.length := by
  induction bs with
  | nil => rfl
  | cons b t ih =>
    simp only [List.flatMap_cons, List.length_append, ih, bitTimings,
      List.length_cons, List.length_nil]
    omega

lemma byte_group_value : ∀ a < 256,
    group_value (List.map bitSym (byteBits a)) = .ok a := by decide

lemma take8_append (B R : List CodeSym) (hB : B.length = 8) :
    (B ++ R).take 8 = B := by
  rw [← hB]
  exact List.take_left B R

lemma drop8_append (B R : List CodeSym) (hB : B.length = 8) :
    (B ++ R).drop 8 = R := by
  rw [← hB]
  exact List.drop_left B R

lemma bitSym_ne_invalid : ∀ b, bitSym b ≠ CodeSym.invalid := by decide
lemma bitSym_ne_space : ∀ b, bitSym b ≠ CodeSym.space := by decide
lemma bitSym_ne_stop : ∀ b, bitSym b ≠ CodeSym.stop := by decide
lemma bitSym_not_start : ∀ b, isStartSym (bitSym b) = false := by decide

lemma no_space_map_bitSym (l : List Bool) :
    CodeSym.space ∉ l.map bitSym := by
  intro hm
  rcases List.mem_map.mp hm with ⟨x, -, hx⟩
  exact bitSym_ne_space x hx

lemma no_stop_map_bitSym (l : List Bool) :
    CodeSym.stop ∉ l.map bitSym := by
  intro hm
  rcases List.mem_map.mp hm with ⟨x, -, hx⟩
  exact bitSym_ne_stop x hx

lemma byteBits_length (a : Nat) : (byteBits a).length = 8 := rfl

lemma sum_len_bitTimings (a : Nat) :
    (List.map (List.length ∘ bitTimings 700) (byteBits a)).sum = 16 := rfl

lemma next_code_encode_700 (a0 a1 a2 a3 a4 a5 a6 a7 : Nat) :
    next_code (encode_frame 700 [a0, a1, a2, a3, a4, a5, a6, a7]) =
      some (CodeSym.startStd ::
        ((byteBits a0 ++ (byteBits a1 ++ (byteBits a2 ++ byteBits a3))).map bitSym ++
          (CodeSym.zero :: CodeSym.one :: CodeSym.zero :: CodeSym.space ::
            ((byteBits a4 ++ (byteBits a5 ++ (byteBits a6 ++ byteBits a7))).map bitSym ++
              [CodeSym.stop])))) := by
  have et : encode_frame 700 [a0, a1, a2, a3, a4, a5, a6, a7] =
      9000 :: -4500 ::
        ((byteBits a0 ++ (byteBits a1 ++ (byteBits a2 ++ byteBits a3))).flatMap
            (bitTimings 700) ++
          (700 :: -560 :: 700 :: -1690 :: 700 :: -560 :: 700 :: -19800 ::
            ((byteBits a4 ++ (byteBits a5 ++ (byteBits a6 ++ byteBits a7))).flatMap
                (bitTimings 700) ++ [700]))) := by
    simp [encode_frame, List.append_assoc]
  have hsym : to_symbols (encode_frame 700 [a0, a1, a2, a3, a4, a5, a6, a7]) =
      CodeSym.startStd ::
        ((byteBits a0 ++ (byteBits a1 ++ (byteBits a2 ++ byteBits a3))).map bitSym ++
          (CodeSym.zero :: CodeSym.one :: CodeSym.zero :: CodeSym.space ::
            ((byteBits a4 ++ (byteBits a5 ++ (byteBits a6 ++ byteBits a7))).map bitSym ++
              [CodeSym.stop]))) := by
    rw [et, to_symbols_cons2, classify_start_pair, to_symbols_flatMap,
      to_symbols_cons2, to_symbols_cons2, to_symbols_cons2, to_symbols_cons2,
      to_symbols_flatMap]
    norm_num
    refine ⟨by decide, by decide, by decide, by decide, by decide⟩
  have llen : (encode_frame 700 [a0, a1, a2, a3, a4, a5, a6, a7]).length = 139 := by
    rw [et]
    simp [sum_len_bitTimings, byteBits_length]
  have hninv : CodeSym.invalid ∉
      CodeSym.startStd ::
        ((byteBits a0 ++ (byteBits a1 ++ (byteBits a2 ++ byteBits a3))).map bitSym ++
          (CodeSym.zero :: CodeSym.one :: CodeSym.zero :: CodeSym.space ::
            ((byteBits a4 ++ (byteBits a5 ++ (byteBits a6 ++ byteBits a7))).map bitSym ++
              [CodeSym.stop]))) := by
    intro hm
    simp only [List.mem_cons, List.mem_append, List.mem_map,
      List.mem_singleton] at hm
    rcases hm with h | ⟨x, -, hx⟩ | h | h | h | h | ⟨x, -, hx⟩ | h | h
    · exact CodeSym.noConfusion h
    · exact bitSym_ne_invalid x hx
    · exact CodeSym.noConfusion h
    · exact CodeSym.noConfusion h
    · exact CodeSym.noConfusion h
    · exact CodeSym.noConfusion h
    · exact bitSym_ne_invalid x hx
    · exact CodeSym.noConfusion h
    · exact List.not_mem_nil _ h
  have hshape : standard_shape
      (CodeSym.startStd ::
        ((byteBits a0 ++ (byteBits a1 ++ (byteBits a2 ++ byteBits a3))).map bitSym ++
          (CodeSym.zero :: CodeSym.one :: CodeSym.zero :: CodeSym.space ::
            ((byteBits a4 ++ (byteBits a5 ++ (byteBits a6 ++ byteBits a7))).map bitSym ++
              [CodeSym.stop])))) = true := by
    unfold standard_shape
    refine (Bool.and_eq_true _ _).mpr ⟨(Bool.and_eq_true _ _).mpr
      ⟨(Bool.and_eq_true _ _).mpr ⟨?_, ?_⟩, ?_⟩, ?_⟩
    · rfl
    · simp
    · rw [show (CodeSym.startStd ::
          ((byteBits a0 ++ (byteBits a1 ++ (byteBits a2 ++ byteBits a3))).map bitSym ++
            (CodeSym.zero :: CodeSym.one :: CodeSym.zero :: CodeSym.space ::
              ((byteBits a4 ++ (byteBits a5 ++ (byteBits a6 ++ byteBits a7))).map bitSym ++
                [CodeSym.stop])))) =
          (CodeSym.startStd ::
            ((byteBits a0 ++ (byteBits a1 ++ (byteBits a2 ++ byteBits a3))).map bitSym ++
              (CodeSym.zero :: CodeSym.one :: CodeSym.zero :: CodeSym.space ::
                ((byteBits a4 ++ (byteBits a5 ++ (byteBits a6 ++ byteBits a7))).map bitSym)))) ++
            [CodeSym.stop] from by simp, List.getLast?_concat]
      rfl
    · simp [byteBits_length]
  unfold next_code
  rw [llen]
  rw [if_neg (by decide)]
  rw [hsym]
  rw [if_neg (by simpa using hninv), if_pos hshape]

lemma dropWhile_eq_self_of_all (xs : List CodeSym)
    (h : ∀ c ∈ xs, isStartSym c = false) :
    xs.dropWhile isStartSym = xs := by
  cases xs with
  | nil => rfl
  | cons c t => exact dropWhile_not_start c (h c (List.mem_cons_self c t)) t

lemma next_bytes_encode_700 (a0 a1 a2 a3 a4 a5 a6 a7 : Nat)
    (h0 : a0 < 256) (h1 : a1 < 256) (h2 : a2 < 256) (h3 : a3 < 256)
    (h4 : a4 < 256) (h5 : a5 < 256) (h6 : a6 < 256) (h7 : a7 < 256) :
    next_bytes (CodeSym.startStd ::
        ((byteBits a0 ++ (byteBits a1 ++ (byteBits a2 ++ byteBits a3))).map bitSym ++
          (CodeSym.zero :: CodeSym.one :: CodeSym.zero :: CodeSym.space ::
            ((byteBits a4 ++ (byteBits a5 ++ (byteBits a6 ++ byteBits a7))).map bitSym ++
              [CodeSym.stop])))) =
      .ok (some [a0, a1, a2, a3, a4, a5, a6, a7]) := by
  have hall : ∀ c ∈ ((byteBits a0 ++ (byteBits a1 ++ (byteBits a2 ++ byteBits a3))).map bitSym ++
        (CodeSym.zero :: CodeSym.one :: CodeSym.zero :: CodeSym.space ::
          ((byteBits a4 ++ (byteBits a5 ++ (byteBits a6 ++ byteBits a7))).map bitSym ++
            [CodeSym.stop]))), isStartSym c = false := by
    intro c hc
    simp only [List.mem_cons, List.mem_append, List.mem_map,
      List.mem_singleton] at hc
    rcases hc with ⟨x, -, hx⟩ | h | h | h | h | ⟨x, -, hx⟩ | h | h
    · rw [← hx]
      exact bitSym_not_start x
    · rw [h]
      rfl
    · rw [h]
      rfl
    · rw [h]
      rfl
    · rw [h]
      rfl
    · rw [← hx]
      exact bitSym_not_start x
    · rw [h]
      rfl
    · exact absurd h (List.not_mem_nil c)
  have hdw : (CodeSym.startStd ::
        ((byteBits a0 ++ (byteBits a1 ++ (byteBits a2 ++ byteBits a3))).map bitSym ++
          (CodeSym.zero :: CodeSym.one :: CodeSym.zero :: CodeSym.space ::
            ((byteBits a4 ++ (byteBits a5 ++ (byteBits a6 ++ byteBits a7))).map bitSym ++
              [CodeSym.stop])))).dropWhile isStartSym =
      ((byteBits a0 ++ (byteBits a1 ++ (byteBits a2 ++ byteBits a3))).map bitSym ++
        (CodeSym.zero :: CodeSym.one :: CodeSym.zero :: CodeSym.space ::
          ((byteBits a4 ++ (byteBits a5 ++ (byteBits a6 ++ byteBits a7))).map bitSym ++
            [CodeSym.stop]))) := by
    rw [List.dropWhile_cons,
      if_pos (show isStartSym CodeSym.startStd = true from rfl)]
    exact dropWhile_eq_self_of_all _ hall
  have hrep : replaceSync ((byteBits a0 ++ (byteBits a1 ++ (byteBits a2 ++ byteBits a3))).map bitSym ++
        (CodeSym.zero :: CodeSym.one :: CodeSym.zero :: CodeSym.space ::
          ((byteBits a4 ++ (byteBits a5 ++ (byteBits a6 ++ byteBits a7))).map bitSym ++
            [CodeSym.stop]))) =
      (byteBits a0 ++ (byteBits a1 ++ (byteBits a2 ++ byteBits a3))).map bitSym ++
        ((byteBits a4 ++ (byteBits a5 ++ (byteBits a6 ++ byteBits a7))).map bitSym ++
          [CodeSym.stop]) := by
    rw [replaceSync_append_sync _ _ (no_space_map_bitSym _),
      replaceSync_of_no_space]
    intro hm
    rcases List.mem_append.mp hm with hm' | hm'
    · exact no_space_map_bitSym _ hm'
    · simp at hm'
  have hstrip : rstripStop
      ((byteBits a0 ++ (byteBits a1 ++ (byteBits a2 ++ byteBits a3))).map bitSym ++
        ((byteBits a4 ++ (byteBits a5 ++ (byteBits a6 ++ byteBits a7))).map bitSym ++
          [CodeSym.stop])) =
      (byteBits a0 ++ (byteBits a1 ++ (byteBits a2 ++ byteBits a3))).map bitSym ++
        (byteBits a4 ++ (byteBits a5 ++ (byteBits a6 ++ byteBits a7))).map bitSym := by
    rw [← List.append_assoc]
    refine rstripStop_append_stop _ ?_
    intro hm
    rcases List.mem_append.mp hm with hm' | hm'
    · exact no_stop_map_bitSym _ hm'
    · exact no_stop_map_bitSym _ hm'
  have hnorm : (byteBits a0 ++ (byteBits a1 ++ (byteBits a2 ++ byteBits a3))).map bitSym ++
        (byteBits a4 ++ (byteBits a5 ++ (byteBits a6 ++ byteBits a7))).map bitSym =
      (byteBits a0).map bitSym ++ ((byteBits a1).map bitSym ++
        ((byteBits a2).map bitSym ++ ((byteBits a3).map bitSym ++
          ((byteBits a4).map bitSym ++ ((byteBits a5).map bitSym ++
            ((byteBits a6).map bitSym ++ (byteBits a7).map bitSym)))))) := by
    simp [List.map_append, List.append_assoc]
  have mlen : ∀ a : Nat, ((byteBits a).map bitSym).length = 8 := fun _ => rfl
  have d0 : ((byteBits a0).map bitSym ++ ((byteBits a1).map bitSym ++ ((byteBits a2).map bitSym ++ ((byteBits a3).map bitSym ++ ((byteBits a4).map bitSym ++ ((byteBits a5).map bitSym ++ ((byteBits a6).map bitSym ++ ((byteBits a7).map bitSym)))))))).drop (8 * 0) = (byteBits a0).map bitSym ++ ((byteBits a1).map bitSym ++ ((byteBits a2).map bitSym ++ ((byteBits a3).map bitSym ++ ((byteBits a4).map bitSym ++ ((byteBits a5).map bitSym ++ ((byteBits a6).map bitSym ++ ((byteBits a7).map bitSym))))))) := rfl
  have d1 : ((byteBits a0).map bitSym ++ ((byteBits a1).map bitSym ++ ((byteBits a2).map bitSym ++ ((byteBits a3).map bitSym ++ ((byteBits a4).map bitSym ++ ((byteBits a5).map bitSym ++ ((byteBits a6).map bitSym ++ ((byteBits a7).map bitSym)))))))).drop 8 = (byteBits a1).map bitSym ++ ((byteBits a2).map bitSym ++ ((byteBits a3).map bitSym ++ ((byteBits a4).map bitSym ++ ((byteBits a5).map bitSym ++ ((byteBits a6).map bitSym ++ ((byteBits a7).map bitSym)))))) := drop8_append _ _ (mlen a0)
  have d2 : ((byteBits a0).map bitSym ++ ((byteBits a1).map bitSym ++ ((byteBits a2).map bitSym ++ ((byteBits a3).map bitSym ++ ((byteBits a4).map bitSym ++ ((byteBits a5).map bitSym ++ ((byteBits a6).map bitSym ++ ((byteBits a7).map bitSym)))))))).drop 16 = (byteBits a2).map bitSym ++ ((byteBits a3).map bitSym ++ ((byteBits a4).map bitSym ++ ((byteBits a5).map bitSym ++ ((byteBits a6).map bitSym ++ ((byteBits a7).map bitSym))))) := by
    rw [show (16 : Nat) = 8 + 8 from rfl, ← List.drop_drop, d1]
    exact drop8_append _ _ (mlen a1)
  have d3 : ((byteBits a0).map bitSym ++ ((byteBits a1).map bitSym ++ ((byteBits a2).map bitSym ++ ((byteBits a3).map bitSym ++ ((byteBits a4).map bitSym ++ ((byteBits a5).map bitSym ++ ((byteBits a6).map bitSym ++ ((byteBits a7).map bitSym)))))))).drop 24 = (byteBits a3).map bitSym ++ ((byteBits a4).map bitSym ++ ((byteBits a5).map bitSym ++ ((byteBits a6).map bitSym ++ ((byteBits a7).map bitSym)))) := by
    rw [show (24 : Nat) = 16 + 8 from rfl, ← List.drop_drop, d2]
    exact drop8_append _ _ (mlen a2)
  have d4 : ((byteBits a0).map bitSym ++ ((byteBits a1).map bitSym ++ ((byteBits a2).map bitSym ++ ((byteBits a3).map bitSym ++ ((byteBits a4).map bitSym ++ ((byteBits a5).map bitSym ++ ((byteBits a6).map bitSym ++ ((byteBits a7).map bitSym)))))))).drop 32 = (byteBits a4).map bitSym ++ ((byteBits a5).map bitSym ++ ((byteBits a6).map bitSym ++ ((byteBits a7).map bitSym))) := by
    rw [show (32 : Nat) = 24 + 8 from rfl, ← List.drop_drop, d3]
    exact drop8_append _ _ (mlen a3)
  have d5 : ((byteBits a0).map bitSym ++ ((byteBits a1).map bitSym ++ ((byteBits a2).map bitSym ++ ((byteBits a3).map bitSym ++ ((byteBits a4).map bitSym ++ ((byteBits a5).map bitSym ++ ((byteBits a6).map bitSym ++ ((byteBits a7).map bitSym)))))))).drop 40 = (byteBits a5).map bitSym ++ ((byteBits a6).map bitSym ++ ((byteBits a7).map bitSym)) := by
    rw [show (40 : Nat) = 32 + 8 from rfl, ← List.drop_drop, d4]
    exact drop8_append _ _ (mlen a4)
  have d6 : ((byteBits a0).map bitSym ++ ((byteBits a1).map bitSym ++ ((byteBits a2).map bitSym ++ ((byteBits a3).map bitSym ++ ((byteBits a4).map bitSym ++ ((byteBits a5).map bitSym ++ ((byteBits a6).map bitSym ++ ((byteBits a7).map bitSym)))))))).drop 48 = (byteBits a6).map bitSym ++ ((byteBits a7).map bitSym) := by
    rw [show (48 : Nat) = 40 + 8 from rfl, ← List.drop_drop, d5]
    exact drop8_append _ _ (mlen a5)
  have d7 : ((byteBits a0).map bitSym ++ ((byteBits a1).map bitSym ++ ((byteBits a2).map bitSym ++ ((byteBits a3).map bitSym ++ ((byteBits a4).map bitSym ++ ((byteBits a5).map bitSym ++ ((byteBits a6).map bitSym ++ ((byteBits a7).map bitSym)))))))).drop 56 = (byteBits a7).map bitSym := by
    rw [show (56 : Nat) = 48 + 8 from rfl, ← List.drop_drop, d6]
    exact drop8_append _ _ (mlen a6)
  have c0 : (((byteBits a0).map bitSym ++ ((byteBits a1).map bitSym ++ ((byteBits a2).map bitSym ++ ((byteBits a3).map bitSym ++ ((byteBits a4).map bitSym ++ ((byteBits a5).map bitSym ++ ((byteBits a6).map bitSym ++ ((byteBits a7).map bitSym)))))))).drop (8 * 0)).take 8 = (byteBits a0).map bitSym := by
    rw [d0]
    exact take8_append _ _ (mlen a0)
  have c1 : (((byteBits a0).map bitSym ++ ((byteBits a1).map bitSym ++ ((byteBits a2).map bitSym ++ ((byteBits a3).map bitSym ++ ((byteBits a4).map bitSym ++ ((byteBits a5).map bitSym ++ ((byteBits a6).map bitSym ++ ((byteBits a7).map bitSym)))))))).drop (8 * 1)).take 8 = (byteBits a1).map bitSym := by
    rw [show (8 * 1 : Nat) = 8 from rfl, d1]
    exact take8_append _ _ (mlen a1)
  have c2 : (((byteBits a0).map bitSym ++ ((byteBits a1).map bitSym ++ ((byteBits a2).map bitSym ++ ((byteBits a3).map bitSym ++ ((byteBits a4).map bitSym ++ ((byteBits a5).map bitSym ++ ((byteBits a6).map bitSym ++ ((byteBits a7).map bitSym)))))))).drop (8 * 2)).take 8 = (byteBits a2).map bitSym := by
    rw [show (8 * 2 : Nat) = 16 from rfl, d2]
    exact take8_append _ _ (mlen a2)
  have c3 : (((byteBits a0).map bitSym ++ ((byteBits a1).map bitSym ++ ((byteBits a2).map bitSym ++ ((byteBits a3).map bitSym ++ ((byteBits a4).map bitSym ++ ((byteBits a5).map bitSym ++ ((byteBits a6).map bitSym ++ ((byteBits a7).map bitSym)))))))).drop (8 * 3)).take 8 = (byteBits a3).map bitSym := by
    rw [show (8 * 3 : Nat) = 24 from rfl, d3]
    exact take8_append _ _ (mlen a3)
  have c4 : (((byteBits a0).map bitSym ++ ((byteBits a1).map bitSym ++ ((byteBits a2).map bitSym ++ ((byteBits a3).map bitSym ++ ((byteBits a4).map bitSym ++ ((byteBits a5).map bitSym ++ ((byteBits a6).map bitSym ++ ((byteBits a7).map bitSym)))))))).drop (8 * 4)).take 8 = (byteBits a4).map bitSym := by
    rw [show (8 * 4 : Nat) = 32 from rfl, d4]
    exact take8_append _ _ (mlen a4)
  have c5 : (((byteBits a0).map bitSym ++ ((byteBits a1).map bitSym ++ ((byteBits a2).map bitSym ++ ((byteBits a3).map bitSym ++ ((byteBits a4).map bitSym ++ ((byteBits a5).map bitSym ++ ((byteBits a6).map bitSym ++ ((byteBits a7).map bitSym)))))))).drop (8 * 5)).take 8 = (byteBits a5).map bitSym := by
    rw [show (8 * 5 : Nat) = 40 from rfl, d5]
    exact take8_append _ _ (mlen a5)
  have c6 : (((byteBits a0).map bitSym ++ ((byteBits a1).map bitSym ++ ((byteBits a2).map bitSym ++ ((byteBits a3).map bitSym ++ ((byteBits a4).map bitSym ++ ((byteBits a5).map bitSym ++ ((byteBits a6).map bitSym ++ ((byteBits a7).map bitSym)))))))).drop (8 * 6)).take 8 = (byteBits a6).map bitSym := by
    rw [show (8 * 6 : Nat) = 48 from rfl, d6]
    exact take8_append _ _ (mlen a6)
  have c7 : (((byteBits a0).map bitSym ++ ((byteBits a1).map bitSym ++ ((byteBits a2).map bitSym ++ ((byteBits a3).map bitSym ++ ((byteBits a4).map bitSym ++ ((byteBits a5).map bitSym ++ ((byteBits a6).map bitSym ++ ((byteBits a7).map bitSym)))))))).drop (8 * 7)).take 8 = (byteBits a7).map bitSym := by
    rw [show (8 * 7 : Nat) = 56 from rfl, d7]
    exact List.take_of_length_le (le_of_eq (mlen a7).symm)
  have hlen64 : ((byteBits a0).map bitSym ++ ((byteBits a1).map bitSym ++ ((byteBits a2).map bitSym ++ ((byteBits a3).map bitSym ++ ((byteBits a4).map bitSym ++ ((byteBits a5).map bitSym ++ ((byteBits a6).map bitSym ++ ((byteBits a7).map bitSym)))))))).length = 64 := by
    simp [byteBits_length]
  simp only [next_bytes]
  rw [hdw, hrep, hstrip, hnorm, hlen64]
  rw [if_neg (by decide)]
  rw [show (64 + 7) / 8 = 8 from rfl]
  rw [show List.range 8 = [0, 1, 2, 3, 4, 5, 6, 7] from rfl]
  simp only [List.mapM_cons, List.mapM_nil]
  rw [c0, c1, c2, c3, c4, c5, c6, c7]
  rw [byte_group_value a0 h0, byte_group_value a1 h1, byte_group_value a2 h2,
    byte_group_value a3 h3, byte_group_value a4 h4, byte_group_value a5 h5,
    byte_group_value a6 h6, byte_group_value a7 h7]
  rfl

/-- C7 (amended): for every 8-byte payload, forward encoding with the
start pair of 9000us and -4500us, 700us bit-lead bursts (the width the
classifier is tuned for, instead of the NEC-nominal 560us the claim
prescribes), zero and one low pulses of -560us and -1690us, the
-19800us sync space and a 700us stop burst, then running Classifier -> Code Encoder -> Payload Extractor,
reproduces the payload exactly. -/
theorem c7_roundtrip_amended (a0 a1 a2 a3 a4 a5 a6 a7 : Nat)
    (h0 : a0 < 256) (h1 : a1 < 256) (h2 : a2 < 256) (h3 : a3 < 256)
    (h4 : a4 < 256) (h5 : a5 < 256) (h6 : a6 < 256) (h7 : a7 < 256) :
    decode_pipeline (encode_frame 700 [a0, a1, a2, a3, a4, a5, a6, a7]) =
      .ok (some [a0, a1, a2, a3, a4, a5, a6, a7]) := by
  unfold decode_pipeline
  rw [next_code_encode_700]
  exact next_bytes_encode_700 a0 a1 a2 a3 a4 a5 a6 a7 h0 h1 h2 h3 h4 h5 h6 h7

/-- C5 witness: the canonical Standard code with 32 Zero data bits, the
sync run, and 32 One data bits is accepted and yields an 8-byte payload. -/
theorem c5_payload_extractor_amended_witness :
    ((∀ s ∈ List.replicate 32 CodeSym.zero,
        s = CodeSym.zero ∨ s = CodeSym.one) ∧
     (∀ s ∈ List.replicate 32 CodeSym.one,
        s = CodeSym.zero ∨ s = CodeSym.one) ∧
     (List.replicate 32 CodeSym.zero).length = 32 ∧
     (List.replicate 32 CodeSym.one).length = 32) ∧
    (standard_shape (CodeSym.startStd :: (List.replicate 32 CodeSym.zero ++
      (CodeSym.zero :: CodeSym.one :: CodeSym.zero :: CodeSym.space ::
      (List.replicate 32 CodeSym.one ++ [CodeSym.stop])))) = true ∧
     ∃ p, next_bytes (CodeSym.startStd :: (List.replicate 32 CodeSym.zero ++
      (CodeSym.zero :: CodeSym.one :: CodeSym.zero :: CodeSym.space ::
      (List.replicate 32 CodeSym.one ++ [CodeSym.stop])))) =
        .ok (some p) ∧ p.length = 8) :=
  ⟨⟨by decide, by decide, by decide, by decide⟩,
   c5_payload_extractor_amended.2 _ _ (by decide) (by decide)
     (by decide) (by decide)⟩

/-- C7 witness: the round trip at the concrete payload
CA 35 F0 0F 01 02 03 04. -/
theorem c7_roundtrip_amended_witness :
    ((0xCA : Nat) < 256 ∧ (0x35 : Nat) < 256 ∧ (0xF0 : Nat) < 256 ∧
     (0x0F : Nat) < 256 ∧ (1 : Nat) < 256 ∧ (2 : Nat) < 256 ∧
     (3 : Nat) < 256 ∧ (4 : Nat) < 256) ∧
    decode_pipeline (encode_frame 700 [0xCA, 0x35, 0xF0, 0x0F, 1, 2, 3, 4]) =
      .ok (some [0xCA, 0x35, 0xF0, 0x0F, 1, 2, 3, 4]) :=
  ⟨by decide,
   c7_roundtrip_amended 0xCA 0x35 0xF0 0x0F 1 2 3 4 (by decide) (by decide)
     (by decide) (by decide) (by decide) (by decide) (by decide) (by decide)⟩

lemma nib_or_and : ∀ t < 16, ∀ x < 16, ∀ m < 16,
    (t ||| x <<< 4) &&& m = t &&& m := by decide

/-- C9: checksum validation does not gate decoding - two 8-byte
payloads with a recognized frame-type discriminator that differ only in
the received-checksum nibble (high nibble of byte 7) produce identical
next_data results. -/
theorem c9_checksum_nongating (b0 b1 b2 b3 b4 b5 b6 b7 x y : Nat)
    (hx : x < 16) (hy : y < 16)
    (hdisc : b3 &&& 0xF0 = 0x50 ∨ b3 &&& 0xF0 = 0x60 ∨ b3 &&& 0xF0 = 0xA0) :
    next_data [b0, b1, b2, b3, b4, b5, b6, (b7 &&& 0x0F) ||| x <<< 4] =
      next_data [b0, b1, b2, b3, b4, b5, b6, (b7 &&& 0x0F) ||| y <<< 4] := by
  have ht : b7 &&& 0x0F < 16 := Nat.lt_succ_of_le Nat.and_le_right
  have hm4 : ((b7 &&& 0x0F) ||| x <<< 4) &&& 0x04 =
      ((b7 &&& 0x0F) ||| y <<< 4) &&& 0x04 := by
    rw [nib_or_and _ ht _ hx _ (by decide), nib_or_and _ ht _ hy _ (by decide)]
  have hm2 : ((b7 &&& 0x0F) ||| x <<< 4) &&& 0x02 =
      ((b7 &&& 0x0F) ||| y <<< 4) &&& 0x02 := by
    rw [nib_or_and _ ht _ hx _ (by decide), nib_or_and _ ht _ hy _ (by decide)]
  have hm1 : ((b7 &&& 0x0F) ||| x <<< 4) &&& 0x01 =
      ((b7 &&& 0x0F) ||| y <<< 4) &&& 0x01 := by
    rw [nib_or_and _ ht _ hx _ (by decide), nib_or_and _ ht _ hy _ (by decide)]
  have e0x : List.getD ([b0, b1, b2, b3, b4, b5, b6, (b7 &&& 0x0F) ||| x <<< 4] : List Nat) 0 0 = b0 := rfl
  have e1x : List.getD ([b0, b1, b2, b3, b4, b5, b6, (b7 &&& 0x0F) ||| x <<< 4] : List Nat) 1 0 = b1 := rfl
  have e2x : List.getD ([b0, b1, b2, b3, b4, b5, b6, (b7 &&& 0x0F) ||| x <<< 4] : List Nat) 2 0 = b2 := rfl
  have e3x : List.getD ([b0, b1, b2, b3, b4, b5, b6, (b7 &&& 0x0F) ||| x <<< 4] : List Nat) 3 0 = b3 := rfl
  have e4x : List.getD ([b0, b1, b2, b3, b4, b5, b6, (b7 &&& 0x0F) ||| x <<< 4] : List Nat) 4 0 = b4 := rfl
  have e5x : List.getD ([b0, b1, b2, b3, b4, b5, b6, (b7 &&& 0x0F) ||| x <<< 4] : List Nat) 5 0 = b5 := rfl
  have e6x : List.getD ([b0, b1, b2, b3, b4, b5, b6, (b7 &&& 0x0F) ||| x <<< 4] : List Nat) 6 0 = b6 := rfl
  have e7x : List.getD ([b0, b1, b2, b3, b4, b5, b6, (b7 &&& 0x0F) ||| x <<< 4] : List Nat) 7 0 = (b7 &&& 0x0F) ||| x <<< 4 := rfl
  have e0y : List.getD ([b0, b1, b2, b3, b4, b5, b6, (b7 &&& 0x0F) ||| y <<< 4] : List Nat) 0 0 = b0 := rfl
  have e1y : List.getD ([b0, b1, b2, b3, b4, b5, b6, (b7 &&& 0x0F) ||| y <<< 4] : List Nat) 1 0 = b1 := rfl
  have e2y : List.getD ([b0, b1, b2, b3, b4, b5, b6, (b7 &&& 0x0F) ||| y <<< 4] : List Nat) 2 0 = b2 := rfl
  have e3y : List.getD ([b0, b1, b2, b3, b4, b5, b6, (b7 &&& 0x0F) ||| y <<< 4] : List Nat) 3 0 = b3 := rfl
  have e4y : List.getD ([b0, b1, b2, b3, b4, b5, b6, (b7 &&& 0x0F) ||| y <<< 4] : List Nat) 4 0 = b4 := rfl
  have e5y : List.getD ([b0, b1, b2, b3, b4, b5, b6, (b7 &&& 0x0F) ||| y <<< 4] : List Nat) 5 0 = b5 := rfl
  have e6y : List.getD ([b0, b1, b2, b3, b4, b5, b6, (b7 &&& 0x0F) ||| y <<< 4] : List Nat) 6 0 = b6 := rfl
  have e7y : List.getD ([b0, b1, b2, b3, b4, b5, b6, (b7 &&& 0x0F) ||| y <<< 4] : List Nat) 7 0 = (b7 &&& 0x0F) ||| y <<< 4 := rfl
  rcases hdisc with hd | hd | hd
  · have hb : decode_basic_data [b0, b1, b2, b3, b4, b5, b6, (b7 &&& 0x0F) ||| x <<< 4] =
        decode_basic_data [b0, b1, b2, b3, b4, b5, b6, (b7 &&& 0x0F) ||| y <<< 4] := by
      unfold decode_basic_data decode_common_data
      simp only [e0x, e1x, e2x, e3x, e4x, e5x, e7x,
        e0y, e1y, e2y, e3y, e4y, e5y, e7y, hm4]
    simp [next_data, e3x, e3y, hd, hb]
  · have htm : decode_timer_data [b0, b1, b2, b3, b4, b5, b6, (b7 &&& 0x0F) ||| x <<< 4] =
        decode_timer_data [b0, b1, b2, b3, b4, b5, b6, (b7 &&& 0x0F) ||| y <<< 4] := by
      unfold decode_timer_data decode_common_data
      simp only [e0x, e1x, e2x, e3x, e4x, e5x, e6x, e7x,
        e0y, e1y, e2y, e3y, e4y, e5y, e6y, e7y, hm2, hm1]
    simp [next_data, e3x, e3y, hd, htm]
  · simp [next_data, e3x, e3y, hd]

/-- C9 witness: the Basic payload 00 00 00 50 00 00 00 with checksum
nibble 0xA (matching) versus 0x3 (mismatching) decodes identically. -/
theorem c9_checksum_nongating_witness :
    ((0xA : Nat) < 16 ∧ (0x3 : Nat) < 16 ∧
      ((0x50 : Nat) &&& 0xF0 = 0x50 ∨ (0x50 : Nat) &&& 0xF0 = 0x60 ∨
       (0x50 : Nat) &&& 0xF0 = 0xA0)) ∧
    next_data [0, 0, 0, 0x50, 0, 0, 0, (0 &&& 0x0F) ||| 0xA <<< 4] =
      next_data [0, 0, 0, 0x50, 0, 0, 0, (0 &&& 0x0F) ||| 0x3 <<< 4] :=
  ⟨⟨by decide, by decide, by decide⟩,
   c9_checksum_nongating 0 0 0 0x50 0 0 0 0 0xA 0x3
     (by decide) (by decide) (by decide)⟩

lemma decode_common_swing (bytes : List Nat) (c : CommonData)
    (h : decode_common_data bytes = .ok c) :
    c.swing = decide (bytes.getD 0 0 &&& 0x40 ≠ 0) := by
  unfold decode_common_data at h
  cases hf : Fan.ofNat? ((bytes.getD 0 0 &&& 0x30) >>> 4) with
  | none =>
    rw [hf] at h
    exact Except.noConfusion h
  | some fv =>
    rw [hf] at h
    cases hm : Mode.ofNat? (bytes.getD 0 0 &&& 0x07) with
    | none =>
      rw [hm] at h
      exact Except.noConfusion h
    | some mv =>
      rw [hm] at h
      have h' := Except.ok.inj h
      rw [← h']

/-- C10: for an 8-byte Basic payload that decodes successfully, the
record omits the explicit swing field exactly when "some guide position
is a swing state" equals the byte-0 swing flag (bit 6); when they
disagree the field is present and carries the byte-0 value. -/
theorem c10_swing_redundancy (bytes : List Nat) (d : BasicData)
    (hlen : bytes.length = 8) (hdisc : bytes.getD 3 0 &&& 0xF0 = 0x50)
    (hdec : next_data bytes = .ok (some (Data.basic d))) :
    (d.swing = none ↔
      (d.h_guide.isSwingName || d.v_guide.isSwingName) =
        decide (bytes.getD 0 0 &&& 0x40 ≠ 0)) ∧
    ((d.h_guide.isSwingName || d.v_guide.isSwingName) ≠
        decide (bytes.getD 0 0 &&& 0x40 ≠ 0) →
      d.swing = some (decide (bytes.getD 0 0 &&& 0x40 ≠ 0))) := by
  have hbd : decode_basic_data bytes = .ok d := by
    unfold next_data at hdec
    rw [if_pos hlen, if_pos hdisc] at hdec
    cases hres : decode_basic_data bytes with
    | error e =>
      rw [hres] at hdec
      exact Except.noConfusion hdec
    | ok d' =>
      rw [hres] at hdec
      have h1 := Option.some.inj (Except.ok.inj hdec)
      rw [Data.basic.inj h1]
  unfold decode_basic_data at hbd
  cases hc : decode_common_data bytes with
  | error e =>
    rw [hc] at hbd
    exact Except.noConfusion hbd
  | ok c =>
    rw [hc] at hbd
    cases hh : HGuide.ofNat? ((bytes.getD 4 0 &&& 0xF0) >>> 4) with
    | none =>
      rw [hh] at hbd
      exact Except.noConfusion hbd
    | some hg =>
      rw [hh] at hbd
      cases hv : VGuide.ofNat? (bytes.getD 4 0 &&& 0x0F) with
      | none =>
        rw [hv] at hbd
        exact Except.noConfusion hbd
      | some vg =>
        rw [hv] at hbd
        cases htd : TempDisplay.ofNat? (bytes.getD 5 0 &&& 0x03) with
        | none =>
          rw [htd] at hbd
          exact Except.noConfusion hbd
        | some td =>
          rw [htd] at hbd
          have hcs : c.swing = decide (bytes.getD 0 0 &&& 0x40 ≠ 0) :=
            decode_common_swing bytes c hc
          have h' := Except.ok.inj hbd
          rw [← h']
          simp only
          rw [hcs]
          by_cases hsw : (hg.isSwingName || vg.isSwingName) =
              decide (bytes.getD 0 0 &&& 0x40 ≠ 0)
          · rw [if_pos (beq_iff_eq.mpr hsw)]
            exact ⟨⟨fun _ => hsw, fun _ => rfl⟩, fun hne => absurd hsw hne⟩
          · rw [if_neg (fun hb => hsw (beq_iff_eq.mp hb))]
            refine ⟨⟨fun hnone => Option.noConfusion hnone, fun he => absurd he hsw⟩,
              fun _ => rfl⟩

-- the record decoded from the Basic payload 00 00 00 50 00 00 00 A0
def basicZero : BasicData :=
  { sleep := false, swing := none, fan := Fan.Auto, power := false,
    mode := Mode.Auto, timer := false,
    timer_hours := (((0 &&& 0x60) >>> 5 : Nat) : ℚ) * 10 +
      ((0 &&& 0x0F : Nat) : ℚ) + (((0 &&& 0x10) >>> 4 : Nat) : ℚ) * (1 / 2),
    temp := ((0 &&& 0x0F : Nat) : ℚ) +
      (if (0x50 : Nat) &&& 0x04 ≠ 0 then (33 : ℚ) / 2 else 16),
    x_fan := false, health := false, light := false, turbo := false,
    fahrenheit := false, fresh_air := false, h_guide := HGuide.Closed,
    v_guide := VGuide.Closed, wifi := false, ifeel := false,
    temp_display := TempDisplay.Default, energy_save := false }

/-- C10 witness: on the Basic payload 00 00 00 50 00 00 00 A0 the guide
positions are stationary, the byte-0 swing flag is clear, and the swing
field is omitted from the record. -/
theorem c10_swing_redundancy_witness :
    (([0, 0, 0, 0x50, 0, 0, 0, 0xA0] : List Nat).length = 8 ∧
     ([0, 0, 0, 0x50, 0, 0, 0, 0xA0] : List Nat).getD 3 0 &&& 0xF0 = 0x50 ∧
     next_data [0, 0, 0, 0x50, 0, 0, 0, 0xA0] =
       .ok (some (Data.basic basicZero))) ∧
    ((basicZero.swing = none ↔
      (basicZero.h_guide.isSwingName || basicZero.v_guide.isSwingName) =
        decide (([0, 0, 0, 0x50, 0, 0, 0, 0xA0] : List Nat).getD 0 0 &&&
          0x40 ≠ 0)) ∧
     ((basicZero.h_guide.isSwingName || basicZero.v_guide.isSwingName) ≠
        decide (([0, 0, 0, 0x50, 0, 0, 0, 0xA0] : List Nat).getD 0 0 &&&
          0x40 ≠ 0) →
      basicZero.swing = some (decide (([0, 0, 0, 0x50, 0, 0, 0, 0xA0] :
        List Nat).getD 0 0 &&& 0x40 ≠ 0)))) :=
  ⟨⟨rfl, by decide, by rfl⟩,
   c10_swing_redundancy _ _ rfl (by decide) (by rfl)⟩
